import Mathlib

/-!
Verification of the room-orchestration state machine of the trivia server
(`src/app.py`) against its natural-language specification.

The Python module keeps every room as a mutable dict and mutates it inside
locked sections.  The shallow embedding below turns each locked section into a
pure function `Room → Room` (or `Room → Room × ApiResponse`), passing the
wall-clock value `now` (milliseconds, a nonnegative integer in Python) as an
explicit parameter.  Python dicts preserve insertion order and update keys in
place, so `players` and `presence` are modelled as insertion-ordered
association lists with in-place update (`assoc_set`).  The `ready` set is only
ever tested for membership, extended when absent, filtered, and sorted for
output, so an insertion-ordered duplicate-free list is a faithful model.

External collaborators (the Gemini question generator and answer judge) are
network services; each function that consumes their result takes that result
as a parameter (`GenPayload` for a generated question, `Except String JVal`
for the judge call: `Except.error` models a raised exception, `JVal` the
parsed JSON value).
-/

/-- Presence liveness window, `PRESENCE_TIMEOUT_MS` in src/app.py. -/
def PRESENCE_TIMEOUT_MS : Nat := 15000

/-- Per-turn deadline, `TURN_TIMEOUT_MS` in src/app.py. -/
def TURN_TIMEOUT_MS : Nat := 10000

/-- Overall question deadline, `QUESTION_TIMEOUT_MS` in src/app.py. -/
def QUESTION_TIMEOUT_MS : Nat := 10000

/-- One entry of a room's event log (`add_event` pushes these). -/
structure Event where
  id : Nat
  role : String
  text : String
deriving Repr, DecidableEq

/-- The `current_question` dict built in `ensure_round_question`. -/
structure Question where
  question : String
  answer : String
  hostComment : String
  category : String
  winner : String
  expected_player : String
  attempt_order : List String
  turn_deadline_ms : Nat
  question_deadline_ms : Nat
deriving Repr, DecidableEq

/-- The per-room state dict created by `get_room` in src/app.py. -/
structure Room where
  players : List (String × Nat)
  presence : List (String × Nat)
  ready : List String
  phase : String
  countdown_end_ms : Nat
  round : Nat
  current_question : Option Question
  events : List Event
  seq : Nat
  generating : Bool
  question_categories : List String
  question_fingerprints : List String
  recent_questions : List String
deriving Repr, DecidableEq

/-- The fresh room `get_room` creates on first reference. -/
def initial_room : Room :=
  { players := [], presence := [], ready := [], phase := "lobby",
    countdown_end_ms := 0, round := 0, current_question := none, events := [],
    seq := 0, generating := false, question_categories := [],
    question_fingerprints := [], recent_questions := [] }

/-- Lookup in an insertion-ordered association list (Python `d[k]` / `k in d`). -/
def assoc_lookup : List (String × Nat) → String → Option Nat
  | [], _ => none
  | (k, v) :: rest, key => if k = key then some v else assoc_lookup rest key

/-- Update-or-append for an insertion-ordered association list (`d[k] = v`):
a present key keeps its position, a new key is appended at the end. -/
def assoc_set : List (String × Nat) → String → Nat → List (String × Nat)
  | [], key, v => [(key, v)]
  | (k, w) :: rest, key, v =>
      if k = key then (key, v) :: rest else (k, w) :: assoc_set rest key v

/-- Removal from an association list (Python `d.pop(k, None)`). -/
def assoc_remove : List (String × Nat) → String → List (String × Nat)
  | [], _ => []
  | (k, w) :: rest, key => if k = key then rest else (k, w) :: assoc_remove rest key

/-- Last `n` elements of a list, Python's `l[-n:]`. -/
def lastN (n : Nat) (l : List α) : List α := l.drop (l.length - n)

/-- ASCII whitespace test used to model Python's `str.strip()`. -/
def is_ws (c : Char) : Bool := c = ' ' || c = '\t' || c = '\n' || c = '\r'

/-- Python's `str.strip()` on the ASCII fragment. -/
def py_strip (s : String) : String :=
  String.mk (((s.data.dropWhile is_ws).reverse.dropWhile is_ws).reverse)

/-- ASCII lowercasing of one character (Python `str.lower()` on ASCII). -/
def ascii_lower (c : Char) : Char :=
  if 'A' ≤ c ∧ c ≤ 'Z' then Char.ofNat (c.toNat + 32) else c

/-- Characters kept by the regex `[^a-z0-9 ]+` substitution in `normalize_text`. -/
def keep_char (c : Char) : Bool :=
  decide (('a' ≤ c ∧ c ≤ 'z') ∨ ('0' ≤ c ∧ c ≤ '9') ∨ c = ' ')

/-- Embedding of `normalize_text` (src/app.py lines 105-109): lowercase, strip,
then keep only `[a-z0-9 ]`.  The NFKD-decompose-and-drop-combining-marks step
of the source is the identity on the ASCII fragment modelled here; characters
outside it are removed by the final filter either way. -/
def normalize_text (text : String) : String :=
  let lowered := py_strip (String.mk (text.data.map ascii_lower))
  String.mk (lowered.data.filter keep_char)

/-- Does `needle` start the list `hay`? (Helper for substring containment.) -/
def starts_with : List Char → List Char → Bool
  | _, [] => true
  | [], _ :: _ => false
  | a :: as, b :: bs => a = b && starts_with as bs

/-- Contiguous-substring test on character lists. -/
def has_sub (needle : List Char) : List Char → Bool
  | [] => starts_with [] needle
  | a :: rest => starts_with (a :: rest) needle || has_sub needle rest

/-- Python's `needle in hay` on strings (contiguous substring). -/
def py_in (needle hay : String) : Bool := has_sub needle.data hay.data

/-- Embedding of `add_event` (src/app.py lines 234-237): increment the
per-room counter, append the event at the tail, keep only the last 120. -/
def add_event (room : Room) (role text : String) : Room :=
  { room with
    seq := room.seq + 1,
    events := lastN 120 (room.events ++ [⟨room.seq + 1, role, text⟩]) }

/-- Embedding of `mark_presence` (src/app.py lines 190-191). -/
def mark_presence (now : Nat) (room : Room) (player : String) : Room :=
  { room with presence := assoc_set room.presence player now }

/-- Embedding of `active_players` (src/app.py lines 181-187): presence entries
within the liveness window whose name is also a joined player, in presence
insertion order.  Python's signed `now - last_seen <= 15000` accepts a
future `last_seen`; truncated Nat subtraction yields 0 there, so both sides
agree. -/
def active_players (now : Nat) (room : Room) : List String :=
  (room.presence.filter (fun p =>
    decide (now - p.2 ≤ PRESENCE_TIMEOUT_MS ∧ (assoc_lookup room.players p.1).isSome))).map
    Prod.fst

/-- Names dropped by the presence sweep at time `now`. -/
def expired_names (now : Nat) (room : Room) : List String :=
  (room.presence.filter (fun p => decide (PRESENCE_TIMEOUT_MS < now - p.2))).map Prod.fst

/-- The presence-expiry sweep at the top of `reconcile_room_state`
(src/app.py lines 196-199): expired presence entries are popped and the same
names are discarded from `ready`. -/
def sweep_presence (now : Nat) (room : Room) : Room :=
  { room with
    presence := room.presence.filter (fun p => decide (now - p.2 ≤ PRESENCE_TIMEOUT_MS)),
    ready := room.ready.filter (fun n => decide (¬ n ∈ expired_names now room)) }

/-- Host message appended by the liveness collapse. -/
def reset_message : String := "Oyunculardan biri cikti. Tur sifirlandi, tekrar Hazir basin."

/-- Embedding of `reconcile_room_state` (src/app.py lines 194-231): sweep
expired presence, collapse to lobby when fewer than two players remain active
mid-round (this branch returns immediately, pre-empting the deadline checks),
otherwise fire the overall question deadline or the per-turn deadline. -/
def reconcile_room_state (now : Nat) (room0 : Room) : Room :=
  let room := sweep_presence now room0
  if (room.phase = "countdown" ∨ room.phase = "question" ∨ room.phase = "round_end")
      ∧ (active_players now room).length < 2 then
    add_event
      { room with
        phase := "lobby", current_question := none, ready := [],
        countdown_end_ms := 0, generating := false } "host" reset_message
  else
    match room.current_question with
    | some q =>
        if room.phase = "question" then
          if q.question_deadline_ms ≠ 0 ∧ q.question_deadline_ms ≤ now then
            add_event
              { room with
                phase := "countdown", countdown_end_ms := now + 3000,
                current_question := none, generating := false } "host"
              ("Sure bitti. Dogru cevap: " ++ q.answer ++ ". 3 saniye sonra yeni soru.")
          else if q.expected_player ≠ "" ∧ q.turn_deadline_ms ≠ 0 ∧ q.turn_deadline_ms ≤ now then
            add_event
              { room with
                phase := "countdown", countdown_end_ms := now + 3000,
                current_question := none, generating := false } "host"
              (q.expected_player ++ " sureyi doldurdu. Dogru cevap: " ++ q.answer ++
                ". 3 saniye sonra yeni soru.")
          else room
        else room
    | none => room

/-- Embedding of `start_countdown` (src/app.py lines 240-247). -/
def start_countdown (now : Nat) (room0 : Room) : Room :=
  let room :=
    { room0 with
      round := room0.round + 1, phase := "countdown",
      countdown_end_ms := now + 10000, current_question := none, ready := [],
      generating := false }
  add_event room "host" ("Tur " ++ toString room.round ++ " basliyor. 10 saniye...")

/-- Embedding of `can_start_round` (src/app.py lines 250-252). -/
def can_start_round (now : Nat) (room : Room) : Bool :=
  let player_names := active_players now room
  decide (2 ≤ player_names.length) && player_names.all (fun n => room.ready.contains n)

/-- Invariant claimed by the spec: `currentQuestion` is present iff the phase
is `question`. -/
def room_invariant (room : Room) : Prop :=
  room.phase = "question" ↔ room.current_question.isSome = true

instance room_invariant_decidable (room : Room) : Decidable (room_invariant room) :=
  inferInstanceAs (Decidable (room.phase = "question" ↔ room.current_question.isSome = true))

/-- A structured result of the question generator, as consumed by
`ensure_round_question`: `generate_question_payload` guarantees `question` and
`answer` are present (nonempty); a missing or empty `category`/`hostComment`
is modelled by `""` (Python falsy), matching the `or`-defaults at the use
site. -/
structure GenPayload where
  category : String
  question : String
  answer : String
  hostComment : String
deriving Repr

/-- A parsed JSON value, as returned by `parse_json_text` for the judge call. -/
inductive JVal where
  | jnull : JVal
  | jbool : Bool → JVal
  | jnum : Int → JVal
  | jstr : String → JVal
  | jarr : List JVal → JVal
  | jobj : List (String × JVal) → JVal

/-- Python truthiness of a JSON value (`bool(x)`). -/
def jtruthy : JVal → Bool
  | .jnull => false
  | .jbool b => b
  | .jnum n => decide (n ≠ 0)
  | .jstr s => decide (s ≠ "")
  | .jarr xs => decide (¬ xs.isEmpty = true)
  | .jobj fs => decide (¬ fs.isEmpty = true)

/-- Lookup in a JSON object (Python `data.get(key)`). -/
def jlookup : List (String × JVal) → String → Option JVal
  | [], _ => none
  | (k, v) :: rest, key => if k = key then some v else jlookup rest key

/-- The value the judge-response handling in `evaluate_answer`
(src/app.py lines 358-367) extracts for the key `correct`: a raised error
yields nothing; a list is unwrapped to its first element when that is a dict,
otherwise replaced by `{}`; a non-dict becomes `{}`; then `data.get("correct")`. -/
def judge_extract (resp : Except String JVal) : Option JVal :=
  match resp with
  | .error _ => none
  | .ok data0 =>
      let data1 : JVal :=
        match data0 with
        | .jarr xs =>
            match xs with
            | (JVal.jobj fs) :: _ => JVal.jobj fs
            | _ => JVal.jobj []
        | d => d
      match data1 with
      | .jobj fs => jlookup fs "correct"
      | _ => JVal.jobj [] |> fun _ => none

/-- The boolean verdict of the judge call: `bool(data.get("correct", False))`,
with every failure (raised error, unparseable or non-dict payload, missing
key) absorbed as `false`. -/
def judge_verdict (resp : Except String JVal) : Bool :=
  match judge_extract resp with
  | some v => jtruthy v
  | none => false

/-- A failed judge call in the sense of the spec: the call raised, or the
response carries no usable `correct` verdict (unparseable body, a non-object
payload, or an object without the key). -/
def judge_failed (resp : Except String JVal) : Bool :=
  (judge_extract resp).isNone

/-- Embedding of `evaluate_answer` (src/app.py lines 343-367).  The network
judge call is a parameter: `Except.error` models `model_request` or
`parse_json_text` raising, `Except.ok` the parsed JSON.  The local fast path
is tried first; the judge outcome is consulted only when it fails.  The
function is total: no judge failure escapes to the caller. -/
def evaluate_answer (judge : Except String JVal)
    (question canonical_answer player_answer : String) : Bool :=
  let na := normalize_text canonical_answer
  let pa := normalize_text player_answer
  let _ := question
  if pa = "" then false
  else if pa = na ∨ py_in pa na = true ∨ py_in na pa = true then true
  else judge_verdict judge

/-- The local normalization fast path of `evaluate_answer` in isolation:
nonempty normalized player answer that equals, contains, or is contained in
the normalized canonical answer. -/
def fast_path_match (canonical_answer player_answer : String) : Bool :=
  let na := normalize_text canonical_answer
  let pa := normalize_text player_answer
  decide (pa ≠ "") && (decide (pa = na) || py_in pa na || py_in na pa)

/-- First locked section of `ensure_round_question` (src/app.py lines
295-300): bail out unless the countdown has expired and no generation is in
flight, otherwise set the `generating` guard.  The boolean reports whether a
generation was started. -/
def ensure_begin (now : Nat) (room : Room) : Room × Bool :=
  if room.phase ≠ "countdown" ∨ now < room.countdown_end_ms ∨ room.generating = true then
    (room, false)
  else ({ room with generating := true }, true)

/-- Second locked section of `ensure_round_question`, success path
(src/app.py lines 309-341 with `error_text` empty): clear the guard and
unconditionally install the generated question — the source performs no
re-check of the room's phase or of an existing question. -/
def apply_generation_success (now : Nat) (room0 : Room) (p : GenPayload) : Room :=
  let room1 := { room0 with generating := false, phase := "question" }
  let q_text := py_strip p.question
  let q_fp := normalize_text q_text
  let room2 :=
    if q_fp ≠ "" then
      { room1 with question_fingerprints := lastN 60 (room1.question_fingerprints ++ [q_fp]) }
    else room1
  let room3 := { room2 with recent_questions := lastN 20 (room2.recent_questions ++ [q_text]) }
  let cq : Question :=
    { question := q_text,
      answer := py_strip p.answer,
      hostComment := py_strip (if p.hostComment = "" then "Hadi bakalim." else p.hostComment),
      category := py_strip (if p.category = "" then "Karisik" else p.category),
      winner := "", expected_player := "", attempt_order := [],
      turn_deadline_ms := 0,
      question_deadline_ms := now + QUESTION_TIMEOUT_MS }
  let room4 :=
    { room3 with
      current_question := some cq,
      question_categories := lastN 12 (room3.question_categories ++ [cq.category]) }
  add_event (add_event room4 "host" cq.question) "host" cq.hostComment

/-- Second locked section of `ensure_round_question`, failure path
(src/app.py lines 309-314, nonempty `error_text`): clear the guard, revert
the phase to lobby and log a truncated host event.  Note the source does not
clear `current_question` here.  (An exception whose `str()` is empty would
instead fall into the success path with a null payload and crash the request;
that degenerate case is outside this model.) -/
def apply_generation_failure (room0 : Room) (error_text : String) : Room :=
  let room1 := { room0 with generating := false, phase := "lobby" }
  add_event room1 "host" ("Soru olusturulamadi: " ++ error_text.take 120)

/-- Public projection of a question inside a snapshot — the canonical answer
is withheld. -/
structure QuestionPublic where
  question : String
  hostComment : String
  winner : String
  category : String
deriving Repr, DecidableEq

/-- The externally visible payload built by `room_snapshot`. -/
structure Snapshot where
  phase : String
  round : Nat
  countdown : Int
  questionCountdown : Int
  scores : List (String × Nat)
  ready : List String
  events : List Event
  question : Option QuestionPublic
  nowMs : Nat
deriving Repr, DecidableEq

/-- Insertion into a list sorted by `le` (helper for the snapshot sorts). -/
def insert_sorted (le : α → α → Bool) (a : α) : List α → List α
  | [] => [a]
  | b :: rest => if le a b then a :: b :: rest else b :: insert_sorted le a rest

/-- Insertion sort by `le` (models Python `sorted`; the keys compared in the
snapshot are distinct, so stability is immaterial). -/
def sort_by (le : α → α → Bool) : List α → List α
  | [] => []
  | a :: rest => insert_sorted le a (sort_by le rest)

/-- Python's `sorted(..., key=lambda item: (-item[1], item[0]))`: descending
score, ties by ascending name. -/
def score_le (a b : String × Nat) : Bool :=
  decide (b.2 < a.2) || (decide (a.2 = b.2) && decide (a.1 ≤ b.1))

/-- Embedding of `room_snapshot` (src/app.py lines 370-405).  `int(x)` on the
float quotient truncates toward zero, modelled by `Int.tdiv`; the timestamps
fit well inside the float-exact integer range, so the float division is
exact for the truncation. -/
def room_snapshot (now : Nat) (room : Room) : Snapshot :=
  let remaining : Int :=
    if room.phase = "countdown" then
      max 0 (Int.tdiv ((room.countdown_end_ms : Int) - (now : Int) + 999) 1000)
    else 0
  let question_remaining : Int :=
    if room.phase = "question" then
      match room.current_question with
      | some q => max 0 (Int.tdiv ((q.question_deadline_ms : Int) - (now : Int) + 999) 1000)
      | none => 0
    else 0
  { phase := room.phase,
    round := room.round,
    countdown := remaining,
    questionCountdown := question_remaining,
    scores := sort_by score_le room.players,
    ready := sort_by (fun a b => decide (a ≤ b)) room.ready,
    events := room.events,
    question :=
      room.current_question.map (fun q =>
        { question := q.question, hostComment := q.hostComment,
          winner := q.winner, category := q.category }),
    nowMs := now }

/-- A transport-level response of the API handlers: 200 with a snapshot,
409 with an error text and the current snapshot attached, or 400 with no
room state touched. -/
inductive ApiResponse where
  | ok : Snapshot → ApiResponse
  | conflict : String → Snapshot → ApiResponse
  | badRequest : String → ApiResponse

/-- The locked section of the `/api/join` handler (src/app.py lines 483-490). -/
def join_op (now : Nat) (room0 : Room) (player : String) : Room × ApiResponse :=
  if player = "" then (room0, .badRequest "playerName gerekli")
  else
    let roomA :=
      if (assoc_lookup room0.players player).isSome then room0
      else
        add_event { room0 with players := room0.players ++ [(player, 0)] }
          "system" (player ++ " odaya girdi.")
    let room := reconcile_room_state now (mark_presence now roomA player)
    (room, .ok (room_snapshot now room))

/-- The locked section of the `/api/leave` handler (src/app.py lines 498-503). -/
def leave_op (now : Nat) (room0 : Room) (player : String) : Room × ApiResponse :=
  if player = "" then (room0, .badRequest "playerName gerekli")
  else
    let room :=
      reconcile_room_state now
        { room0 with
          presence := assoc_remove room0.presence player,
          ready := room0.ready.filter (fun n => decide (¬ n = player)) }
    (room, .ok (room_snapshot now room))

/-- The locked section of the `/api/ready` handler (src/app.py lines 511-531). -/
def ready_op (now : Nat) (room0 : Room) (player : String) : Room × ApiResponse :=
  if player = "" then (room0, .badRequest "playerName gerekli")
  else
    let roomA :=
      if (assoc_lookup room0.players player).isSome then room0
      else { room0 with players := room0.players ++ [(player, 0)] }
    let room := reconcile_room_state now (mark_presence now roomA player)
    if ¬ (room.phase = "lobby" ∨ room.phase = "round_end") then
      (room, .conflict "Su an hazirlanma asamasi degil" (room_snapshot now room))
    else if room.ready.contains player then
      (room, .ok (room_snapshot now room))
    else
      let room1 :=
        add_event { room with ready := room.ready ++ [player] } "system" (player ++ " hazir.")
      let room2 := if can_start_round now room1 then start_countdown now room1 else room1
      (room2, .ok (room_snapshot now room2))

/-- The presence-mark-and-reconcile prelude every `/api/answer` request runs
before acting (src/app.py lines 543-544). -/
def answer_prelude (now : Nat) (room : Room) (player : String) : Room :=
  reconcile_room_state now (mark_presence now room player)

/-- The candidate next player after an incorrect answer (src/app.py lines
586-587): the first active player, in stable presence order, other than the
answering player; `""` when none exists. -/
def next_candidate (now : Nat) (room : Room) (player : String) : String :=
  (((active_players now room).filter (fun n => decide (¬ n = player))).head?).getD ""

/-- The scoreboard line `" | ".join(f"{name}: {score}" ...)` over the players
in insertion order. -/
def join_scores : List (String × Nat) → String
  | [] => ""
  | [(n, s)] => n ++ ": " ++ toString s
  | (n, s) :: rest => n ++ ": " ++ toString s ++ " | " ++ join_scores rest

/-- The correct-answer branch of the `/api/answer` handler (src/app.py lines
571-581): bump the answering player's score (creating the entry at 1 when the
player never joined), record the winner on the question object, emit the win,
scoreboard and countdown events, and resolve to a 3-second countdown with the
question cleared. -/
def answer_correct (now : Nat) (room2 : Room) (q1 : Question) (player : String) :
    Room × ApiResponse :=
  let players1 := assoc_set room2.players player ((assoc_lookup room2.players player).getD 0 + 1)
  let room3 := { room2 with players := players1, current_question := some { q1 with winner := player } }
  let room4 := add_event room3 "host" ("Dogru! Turu " ++ player ++ " aldi. (+1 puan)")
  let room5 := add_event room4 "host" ("Skor: " ++ join_scores room3.players)
  let room6 := add_event room5 "host" "3 saniye sonra yeni soru."
  let room7 :=
    { room6 with
      phase := "countdown", countdown_end_ms := now + 3000,
      current_question := none, generating := false }
  (room7, .ok (room_snapshot now room7))

/-- The incorrect-answer branch of the `/api/answer` handler (src/app.py
lines 582-599): record the attempt, then either hand the turn to the first
other active player (when that candidate has not already attempted) with a
fresh turn deadline, or resolve the question by revealing the answer and
transitioning to a 3-second countdown. -/
def answer_incorrect (now : Nat) (room2 : Room) (q1 : Question) (player : String) :
    Room × ApiResponse :=
  let attempts1 := q1.attempt_order ++ [player]
  let room3 :=
    add_event { room2 with current_question := some { q1 with attempt_order := attempts1 } }
      "host" "Yanlis cevap."
  let next_player := next_candidate now room3 player
  if next_player ≠ "" ∧ ¬ next_player ∈ attempts1 then
    let room4 :=
      add_event
        { room3 with
          current_question := some
            { q1 with
              attempt_order := attempts1, expected_player := next_player,
              turn_deadline_ms := now + TURN_TIMEOUT_MS } }
        "host" (player ++ " bilemedi. Sira " ++ next_player ++ " oyuncusunda.")
    (room4, .ok (room_snapshot now room4))
  else
    let room4 :=
      add_event room3 "host"
        ("Iki taraf da bilemedi. Dogru cevap: " ++ q1.answer ++ ". 3 saniye sonra yeni soru.")
    let room5 :=
      { room4 with
        phase := "countdown", countdown_end_ms := now + 3000,
        current_question := none, generating := false }
    (room5, .ok (room_snapshot now room5))

/-- The tail of the `/api/answer` handler once the turn has been claimed
(src/app.py lines 561-601): record the (possibly updated) question, evaluate
the answer, log it as a system event, re-check phase and question (the check
is in the source because the judge call happens inside the locked section;
the model keeps it verbatim), then take the correct or incorrect branch. -/
def answer_evaluated (judge : Except String JVal) (now : Nat) (room : Room) (q1 : Question)
    (player answer_text : String) : Room × ApiResponse :=
  let room1 := { room with current_question := some q1 }
  let correct := evaluate_answer judge q1.question q1.answer answer_text
  let room2 := add_event room1 "system" (player ++ ": " ++ answer_text)
  if room2.phase ≠ "question" ∨ room2.current_question = none then
    (room2, .ok (room_snapshot now room2))
  else if correct = true then answer_correct now room2 q1 player
  else answer_incorrect now room2 q1 player

/-- The `/api/answer` handler once a current question is known to exist
(src/app.py lines 548-601): reject a repeated attempt, reject a stolen turn,
implicitly claim the turn when it is unclaimed, then evaluate. -/
def answer_with_question (judge : Except String JVal) (now : Nat) (room : Room)
    (q : Question) (player answer_text : String) : Room × ApiResponse :=
  if player ∈ q.attempt_order then
    (room, .conflict "Yanlis cevap. Bu tur tekrar cevap veremezsin." (room_snapshot now room))
  else if q.expected_player ≠ "" ∧ q.expected_player ≠ player then
    (room, .conflict ("Sira " ++ q.expected_player ++ " oyuncusunda.") (room_snapshot now room))
  else
    answer_evaluated judge now room
      (if q.expected_player = "" then { q with expected_player := player } else q)
      player answer_text

/-- The locked section of the `/api/answer` handler (src/app.py lines
534-602), with the judge outcome passed in. -/
def answer_op (judge : Except String JVal) (now : Nat) (room0 : Room)
    (player answer_text : String) : Room × ApiResponse :=
  if player = "" ∨ answer_text = "" then (room0, .badRequest "playerName ve answer gerekli")
  else
    let room := answer_prelude now room0 player
    if room.phase = "question" then
      match room.current_question with
      | some q => answer_with_question judge now room q player answer_text
      | none => (room, .conflict "Su an soru asamasi degil" (room_snapshot now room))
    else (room, .conflict "Su an soru asamasi degil" (room_snapshot now room))

/-- The first locked section of the `/api/state` handler (src/app.py lines
444-448): mark presence when the polling player has joined, then reconcile.
The handler's second locked section is another reconcile-and-snapshot. -/
def poll_op (now : Nat) (room : Room) (player : String) : Room :=
  let roomA :=
    if player ≠ "" ∧ (assoc_lookup room.players player).isSome then
      mark_presence now room player
    else room
  reconcile_room_state now roomA

/-- One atomic locked section acting on a room.  Each constructor is one of
the operations named by the claims; question generation is split into its
guard-setting section and its apply section exactly as the source drops
`ROOM_LOCK` around the network call, so a trace of these operations is an
interleaving of concurrent requests at lock granularity. -/
inductive Op where
  | join : Nat → String → Op
  | leave : Nat → String → Op
  | ready : Nat → String → Op
  | answer : Except String JVal → Nat → String → String → Op
  | poll : Nat → String → Op
  | genBegin : Nat → Op
  | genApplyOk : Nat → GenPayload → Op
  | genApplyErr : String → Op

/-- Apply one locked section to a room (responses discarded). -/
def step (room : Room) : Op → Room
  | .join now player => (join_op now room player).1
  | .leave now player => (leave_op now room player).1
  | .ready now player => (ready_op now room player).1
  | .answer judge now player text => (answer_op judge now room player text).1
  | .poll now player => poll_op now room player
  | .genBegin now => (ensure_begin now room).1
  | .genApplyOk now p => apply_generation_success now room p
  | .genApplyErr e => apply_generation_failure room e

/-- Run a sequence of locked sections. -/
def run_room (room : Room) (ops : List Op) : Room :=
  ops.foldl step room

/-- Identity of an exclusive-access scope.  src/app.py line 102 defines a
single module-level `ROOM_LOCK = threading.Lock()`; it is the only lock in
the program. -/
inductive LockId where
  | global_room_lock : LockId
deriving DecidableEq

/-- The lock a handler acquires before touching the room named `room_id`:
every `with ROOM_LOCK:` block in src/app.py (lines 444, 452, 483, 498, 511,
541, and both sections of `ensure_round_question` at 295 and 309) takes the
same module-level lock, whatever the room. -/
def lock_for_room (room_id : String) : LockId :=
  let _ := room_id
  LockId.global_room_lock

theorem add_event_phase (r : Room) (role text : String) : (add_event r role text).phase = r.phase :=
  rfl

theorem add_event_cq (r : Room) (role text : String) :
    (add_event r role text).current_question = r.current_question := rfl

theorem sweep_phase (now : Nat) (r : Room) : (sweep_presence now r).phase = r.phase := rfl

theorem sweep_cq (now : Nat) (r : Room) :
    (sweep_presence now r).current_question = r.current_question := rfl

theorem filter_filter_of_imp (p q : α → Bool) (h : ∀ a, q a = true → p a = true)
    (l : List α) : (l.filter p).filter q = l.filter q := by
  induction l with
  | nil => rfl
  | cons a t ih =>
      simp only [List.filter_cons]
      by_cases hq : q a = true
      · rw [if_pos (h a hq)]
        simp only [List.filter_cons]
        rw [if_pos hq, if_pos hq, ih]
      · by_cases hp : p a = true
        · rw [if_pos hp]
          simp only [List.filter_cons]
          rw [if_neg hq, if_neg hq, ih]
        · rw [if_neg hp, if_neg hq, ih]

/-- The presence sweep does not change which players are active at the same
instant: the sweep keeps exactly the in-window entries, a superset of the
active ones. -/
theorem sweep_active (now : Nat) (room : Room) :
    active_players now (sweep_presence now room) = active_players now room := by
  unfold active_players
  exact congrArg (List.map Prod.fst)
    (filter_filter_of_imp _ _ (fun a ha => decide_eq_true (of_decide_eq_true ha).1)
      room.presence)

/-- C3.  For every room in phase countdown or question with fewer than two
active players, reconciliation performs exactly the liveness collapse: the
result is the swept room reset to lobby — `currentQuestion`, `ready`,
`countdownEndAt` and `generating` cleared — with precisely one host event
appended explaining the reset, and no deadline transition fires (the
right-hand side is the complete result of the operation). -/
theorem c3_liveness_collapse (now : Nat) (room : Room)
    (hph : room.phase = "countdown" ∨ room.phase = "question")
    (hact : (active_players now room).length < 2) :
    reconcile_room_state now room =
      add_event
        { sweep_presence now room with
          phase := "lobby", current_question := none, ready := [],
          countdown_end_ms := 0, generating := false } "host" reset_message := by
  have hact' : (active_players now (sweep_presence now room)).length < 2 := by
    rw [sweep_active]; exact hact
  have hph' : (sweep_presence now room).phase = "countdown" ∨
      (sweep_presence now room).phase = "question" ∨
      (sweep_presence now room).phase = "round_end" := by
    rcases hph with h | h
    · exact Or.inl h
    · exact Or.inr (Or.inl h)
  simp only [reconcile_room_state]
  rw [if_pos ⟨hph', hact'⟩]

def wroom3 : Room :=
  { initial_room with
    players := [("Ayse", 0), ("Can", 0)], presence := [("Ayse", 0)],
    phase := "countdown", countdown_end_ms := 10000, round := 1 }

theorem c3_liveness_collapse_witness :
    (active_players 0 wroom3).length < 2 ∧
      reconcile_room_state 0 wroom3 =
        add_event
          { sweep_presence 0 wroom3 with
            phase := "lobby", current_question := none, ready := [],
            countdown_end_ms := 0, generating := false } "host" reset_message :=
  ⟨by decide, c3_liveness_collapse 0 wroom3 (Or.inl rfl) (by decide)⟩

/-- C9 counterexample.  The claim says operations on distinct rooms use
distinct exclusive-access scopes; in the source every handler takes the
single module-level `ROOM_LOCK`, so two different room ids share one scope. -/
theorem c9_distinct_rooms_share_lock :
    lock_for_room "oda1" = lock_for_room "oda2" ∧ "oda1" ≠ "oda2" :=
  ⟨rfl, by decide⟩

/-- C9 amended.  Every mutating or reconciling operation runs inside one
process-wide exclusive-access scope shared by all rooms (`ROOM_LOCK`,
src/app.py line 102): the scope acquired for a room is the same whatever the
room, so operations on different rooms contend on one lock. -/
theorem c9_single_global_lock (room_id1 room_id2 : String) :
    lock_for_room room_id1 = lock_for_room room_id2 := rfl

def c2_room : Room := { initial_room with phase := "lobby" }

def c2_payload : GenPayload :=
  { category := "Tarih", question := "Ilk soru", answer := "Cevap", hostComment := "Haydi" }

/-- C2.  The source's apply step performs no defensive re-check: applied to a
room whose phase is `lobby` (so not `countdown`), a completed generation
still flips the phase to `question` and installs the question, instead of
discarding the result and leaving phase and `currentQuestion` unchanged as
the claim states.  Such a room is exactly what a liveness collapse during the
network call leaves behind. -/
theorem c2_apply_without_check :
    c2_room.phase = "lobby" ∧ c2_room.current_question = none ∧
      (apply_generation_success 40000 c2_room c2_payload).phase = "question" ∧
      ((apply_generation_success 40000 c2_room c2_payload).current_question).isSome = true := by
  refine ⟨rfl, rfl, rfl, ?_⟩
  decide

/-- Consecutive event identifiers starting at `k`: this is "strictly
increasing with no gaps" in concrete form. -/
def ids_from : Nat → List Event → Prop
  | _, [] => True
  | k, e :: rest => e.id = k ∧ ids_from (k + 1) rest

theorem ids_from_append (k : Nat) (l1 l2 : List Event) :
    ids_from k (l1 ++ l2) ↔ ids_from k l1 ∧ ids_from (k + l1.length) l2 := by
  induction l1 generalizing k with
  | nil => simp [ids_from]
  | cons e rest ih =>
      show (e.id = k ∧ ids_from (k + 1) (rest ++ l2)) ↔
        (e.id = k ∧ ids_from (k + 1) rest) ∧ ids_from (k + (rest.length + 1)) l2
      rw [ih, show k + (rest.length + 1) = k + 1 + rest.length from by omega, and_assoc]

theorem ids_from_drop (j : Nat) : ∀ (k : Nat) (l : List Event),
    ids_from k l → ids_from (k + j) (l.drop j) := by
  induction j with
  | zero => intro k l h; simpa using h
  | succ j ih =>
      intro k l h
      match l with
      | [] => simp [ids_from]
      | e :: rest =>
          have h2 := (ih (k + 1) rest h.2)
          rw [show k + (j + 1) = k + 1 + j from by omega]
          simpa using h2

/-- Shape of a well-formed event log: at most 120 entries (exactly
`min seq 120` after `seq` appends from scratch) carrying the consecutive ids
ending at `seq`. -/
def log_shape (seq : Nat) (events : List Event) : Prop :=
  events.length = min seq 120 ∧ ids_from (seq + 1 - events.length) events

theorem add_event_log_shape (room : Room) (role text : String)
    (h : log_shape room.seq room.events) :
    log_shape (add_event room role text).seq (add_event room role text).events := by
  obtain ⟨hlen, hids⟩ := h
  have hlen_le : room.events.length ≤ room.seq := by omega
  have hsingle : ids_from (room.seq + 1 - room.events.length + room.events.length)
      [⟨room.seq + 1, role, text⟩] := by
    refine ⟨?_, trivial⟩
    show room.seq + 1 = room.seq + 1 - room.events.length + room.events.length
    omega
  have happ : ids_from (room.seq + 1 - room.events.length)
      (room.events ++ [⟨room.seq + 1, role, text⟩]) :=
    (ids_from_append _ _ _).mpr ⟨hids, hsingle⟩
  unfold log_shape add_event lastN
  simp only [List.length_append, List.length_cons, List.length_nil, List.length_drop,
    Nat.zero_add]
  constructor
  · omega
  · have harith : room.seq + 1 + 1 -
        (room.events.length + 1 - (room.events.length + 1 - 120)) =
      room.seq + 1 - room.events.length + (room.events.length + 1 - 120) := by omega
    rw [harith]
    exact ids_from_drop (room.events.length + 1 - 120) _ _ happ

theorem fold_add_event_shape (appends : List (String × String)) :
    ∀ room : Room, log_shape room.seq room.events →
      log_shape ((appends.foldl (fun acc rt => add_event acc rt.1 rt.2) room).seq)
        ((appends.foldl (fun acc rt => add_event acc rt.1 rt.2) room).events) := by
  induction appends with
  | nil => intro room h; exact h
  | cons a t ih =>
      intro room h
      exact ih _ (add_event_log_shape room a.1 a.2 h)

theorem fold_add_event_seq (appends : List (String × String)) :
    ∀ room : Room,
      (appends.foldl (fun acc rt => add_event acc rt.1 rt.2) room).seq =
        room.seq + appends.length := by
  induction appends with
  | nil => intro room; simp
  | cons a t ih =>
      intro room
      rw [List.foldl_cons, ih]
      show room.seq + 1 + t.length = room.seq + (a :: t).length
      simp
      omega

/-- C6.  First conjunct: one `add_event` call increments `nextEventId`,
appends the event with that id at the tail and truncates the head to 120
entries.  Second conjunct: after any sequence of appends from a fresh room,
the counter equals the number of appends, exactly the last `min n 120`
events are retained (so past 120 appends the oldest are the ones discarded),
and the retained ids are consecutive — strictly increasing with no gaps —
ending at the counter. -/
theorem c6_event_log (room : Room) (role text : String) (appends : List (String × String)) :
    ((add_event room role text).seq = room.seq + 1 ∧
      (add_event room role text).events =
        lastN 120 (room.events ++ [⟨room.seq + 1, role, text⟩])) ∧
    ((appends.foldl (fun acc rt => add_event acc rt.1 rt.2) initial_room).seq =
        appends.length ∧
      (appends.foldl (fun acc rt => add_event acc rt.1 rt.2) initial_room).events.length =
        min appends.length 120 ∧
      ids_from (appends.length + 1 -
          (appends.foldl (fun acc rt => add_event acc rt.1 rt.2) initial_room).events.length)
        (appends.foldl (fun acc rt => add_event acc rt.1 rt.2) initial_room).events) := by
  have h0 : log_shape initial_room.seq initial_room.events := ⟨by decide, trivial⟩
  obtain ⟨h1, h2⟩ := fold_add_event_shape appends initial_room h0
  have hseq := fold_add_event_seq appends initial_room
  have hseq2 : (appends.foldl (fun acc rt => add_event acc rt.1 rt.2) initial_room).seq =
      appends.length := by
    rw [hseq]
    show 0 + appends.length = appends.length
    exact Nat.zero_add _
  refine ⟨⟨rfl, rfl⟩, hseq2, ?_, ?_⟩
  · rw [h1, hseq2]
  · rw [hseq2] at h2
    exact h2

/-- The overall question deadline stored in the room, 0 when no question is
present (mirrors `q.get("question_deadline_ms", 0)`). -/
def question_deadline_of (room : Room) : Nat :=
  (room.current_question.map (fun q => q.question_deadline_ms)).getD 0

/-- The spec formula `ceil(max(0, deadline − now) / 1000)` on integers:
truncated Nat subtraction realizes `max(0, ·)` and adding 999 before floor
division by 1000 realizes the ceiling. -/
def spec_seconds_remaining (deadline now : Nat) : Nat := (deadline - now + 999) / 1000

/-- Adding 999 before dividing by 1000 is exactly the ceiling of `m / 1000`. -/
theorem spec_seconds_remaining_is_ceil (m : Nat) :
    (m + 999) / 1000 = m / 1000 + (if m % 1000 = 0 then 0 else 1) := by
  split <;> omega

/-- Python's `max(0, int((e - n + 999) / 1000))` on integer inputs equals the
Nat-side ceiling formula. -/
theorem max_tdiv_eq_ceil (e n : Nat) :
    max 0 (Int.tdiv ((e : Int) - (n : Int) + 999) 1000) =
      ((spec_seconds_remaining e n : Nat) : Int) := by
  cases hd : (e : Int) - (n : Int) + 999 with
  | ofNat m =>
      have hmn : Int.ofNat m = (e : Int) - (n : Int) + 999 := hd.symm
      rw [Int.ofNat_eq_natCast] at hmn
      have hm : m + n = e + 999 := by omega
      have hquot : m / 1000 = (e - n + 999) / 1000 := by
        rcases Nat.le_total n e with hne | hne
        · have hh : m = e - n + 999 := by omega
          rw [hh]
        · have h1 : m ≤ 999 := by omega
          have h2 : e - n = 0 := by omega
          rw [h2, Nat.div_eq_of_lt (by omega), Nat.div_eq_of_lt (by omega)]
      calc max 0 (Int.tdiv (Int.ofNat m) 1000) = max 0 (Int.ofNat (m / 1000)) := by rfl
        _ = Int.ofNat (m / 1000) := max_eq_right (Int.ofNat_nonneg _)
        _ = ((spec_seconds_remaining e n : Nat) : Int) := by
            rw [spec_seconds_remaining, ← hquot]
            rfl
  | negSucc m =>
      have hneg : (e : Int) - (n : Int) + 999 < 0 := by
        rw [hd]; exact Int.negSucc_lt_zero m
      have h2 : e - n = 0 := by omega
      have hz : max 0 (Int.tdiv (Int.negSucc m) 1000) = 0 := by
        have hle : Int.tdiv (Int.negSucc m) 1000 ≤ 0 := by
          show -Int.ofNat ((m + 1) / 1000) ≤ 0
          exact neg_nonpos.mpr (Int.ofNat_nonneg _)
        exact max_eq_left hle
      rw [hz, spec_seconds_remaining, h2]
      norm_num

/-- C7.  The snapshot's `countdown` field equals
`ceil(max(0, countdownEndAt − now) / 1000)` when the phase is `countdown` and
0 otherwise; `questionCountdown` equals the same formula applied to the
question deadline when the phase is `question` and 0 otherwise; both are
never negative. -/
theorem c7_snapshot_countdowns (room : Room) (now : Nat) :
    (0 ≤ (room_snapshot now room).countdown ∧
      0 ≤ (room_snapshot now room).questionCountdown) ∧
    (room_snapshot now room).countdown =
      (if room.phase = "countdown"
       then ((spec_seconds_remaining room.countdown_end_ms now : Nat) : Int) else 0) ∧
    (room_snapshot now room).questionCountdown =
      (if room.phase = "question"
       then ((spec_seconds_remaining (question_deadline_of room) now : Nat) : Int) else 0) := by
  have hcd : (room_snapshot now room).countdown =
      (if room.phase = "countdown"
       then ((spec_seconds_remaining room.countdown_end_ms now : Nat) : Int) else 0) := by
    show (if room.phase = "countdown"
        then max 0 (Int.tdiv ((room.countdown_end_ms : Int) - (now : Int) + 999) 1000)
        else 0) = _
    by_cases h : room.phase = "countdown"
    · simp only [if_pos h]
      exact max_tdiv_eq_ceil _ _
    · simp only [if_neg h]
  have hqd : (room_snapshot now room).questionCountdown =
      (if room.phase = "question"
       then ((spec_seconds_remaining (question_deadline_of room) now : Nat) : Int) else 0) := by
    show (if room.phase = "question"
        then (match room.current_question with
          | some q => max 0 (Int.tdiv ((q.question_deadline_ms : Int) - (now : Int) + 999) 1000)
          | none => (0 : Int))
        else (0 : Int)) = _
    by_cases h : room.phase = "question"
    · simp only [if_pos h]
      cases hcq : room.current_question with
      | none =>
          show (0 : Int) = ((spec_seconds_remaining (question_deadline_of room) now : Nat) : Int)
          rw [show question_deadline_of room = 0 from by rw [question_deadline_of, hcq]; rfl]
          rw [spec_seconds_remaining, Nat.zero_sub, Nat.zero_add, Nat.div_eq_of_lt (by omega)]
          rfl
      | some q =>
          show max 0 (Int.tdiv ((q.question_deadline_ms : Int) - (now : Int) + 999) 1000) = _
          rw [show question_deadline_of room = q.question_deadline_ms from by
            rw [question_deadline_of, hcq]; rfl]
          exact max_tdiv_eq_ceil _ _
    · simp only [if_neg h]
  refine ⟨⟨?_, ?_⟩, hcd, hqd⟩
  · rw [hcd]
    split
    · exact Int.natCast_nonneg _
    · exact le_refl 0
  · rw [hqd]
    split
    · exact Int.natCast_nonneg _
    · exact le_refl 0

theorem judge_failed_verdict (judge : Except String JVal) (h : judge_failed judge = true) :
    judge_verdict judge = false := by
  cases hx : judge_extract judge with
  | none => unfold judge_verdict; rw [hx]
  | some v =>
      unfold judge_failed at h
      rw [hx] at h
      exact absurd h (by simp)

/-- C8.  Whenever the judge call fails — it raised, or its response carries
no usable `correct` verdict — and the local normalization fast path did not
match, the answer evaluates to incorrect (`false`).  `evaluate_answer` is a
total function into `Bool`, so the failure can never surface as an error to
the `/api/answer` handler that calls it. -/
theorem c8_judge_failure_incorrect (judge : Except String JVal)
    (question canonical_answer player_answer : String)
    (hfp : fast_path_match canonical_answer player_answer = false)
    (hjf : judge_failed judge = true) :
    evaluate_answer judge question canonical_answer player_answer = false := by
  unfold fast_path_match at hfp
  simp only [Bool.and_eq_false_iff, Bool.or_eq_false_iff, decide_eq_false_iff_not,
    not_not] at hfp
  unfold evaluate_answer
  by_cases hpa : normalize_text player_answer = ""
  · simp only [if_pos hpa]
  · have hfp2 : ¬ normalize_text player_answer = normalize_text canonical_answer ∧
        py_in (normalize_text player_answer) (normalize_text canonical_answer) = false ∧
        py_in (normalize_text canonical_answer) (normalize_text player_answer) = false := by
      rcases hfp with h | ⟨⟨h1, h2⟩, h3⟩
      · exact absurd h (by simpa using hpa)
      · exact ⟨h1, h2, h3⟩
    simp only [if_neg hpa]
    rw [if_neg]
    · exact judge_failed_verdict judge hjf
    · rintro (hc | hc | hc)
      · exact hfp2.1 hc
      · rw [hfp2.2.1] at hc
        cases hc
      · rw [hfp2.2.2] at hc
        cases hc

theorem c8_judge_failure_incorrect_witness :
    fast_path_match "Ankara" "Istanbul" = false ∧
      judge_failed (Except.error "timeout") = true ∧
      evaluate_answer (Except.error "timeout") "Turkiyenin baskenti neresidir"
        "Ankara" "Istanbul" = false :=
  ⟨by decide, rfl, c8_judge_failure_incorrect _ _ _ _ (by decide) rfl⟩

theorem assoc_lookup_set_self (l : List (String × Nat)) (k : String) (v : Nat) :
    assoc_lookup (assoc_set l k v) k = some v := by
  induction l with
  | nil => simp [assoc_set, assoc_lookup]
  | cons h t ih =>
      obtain ⟨k1, v1⟩ := h
      by_cases hk : k1 = k
      · simp [assoc_set, assoc_lookup, hk]
      · simp [assoc_set, assoc_lookup, hk, ih]

theorem assoc_lookup_filter (l : List (String × Nat)) (k : String) (v : Nat)
    (p : String × Nat → Bool) (hl : assoc_lookup l k = some v) (hp : p (k, v) = true) :
    assoc_lookup (l.filter p) k = some v := by
  induction l with
  | nil => cases hl
  | cons h t ih =>
      obtain ⟨k1, v1⟩ := h
      by_cases hk : k1 = k
      · rw [assoc_lookup, if_pos hk] at hl
        obtain rfl : v1 = v := by cases hl; rfl
        subst hk
        rw [List.filter_cons, if_pos hp, assoc_lookup, if_pos rfl]
      · rw [assoc_lookup, if_neg hk] at hl
        rw [List.filter_cons]
        split
        · rw [assoc_lookup, if_neg hk]
          exact ih hl
        · exact ih hl

theorem mem_lastN_append_of_mem (l l2 : List α) (e : α) (he : e ∈ l2)
    (hlen : l2.length ≤ 120) : e ∈ lastN 120 (l ++ l2) := by
  show e ∈ (l ++ l2).drop ((l ++ l2).length - 120)
  have h4 : (l ++ l2).length = l.length + l2.length := List.length_append _ _
  rw [List.drop_append_of_le_length (by omega)]
  exact List.mem_append_right _ he

theorem lastN_lastN_append (n : Nat) (l l2 : List α) :
    lastN n (lastN n l ++ l2) = lastN n (l ++ l2) := by
  show (l.drop (l.length - n) ++ l2).drop ((l.drop (l.length - n) ++ l2).length - n) =
    (l ++ l2).drop ((l ++ l2).length - n)
  have h1 : l.length - n ≤ l.length := Nat.sub_le _ _
  rw [← List.drop_append_of_le_length h1, List.drop_drop]
  congr 1
  have h3 : ((l ++ l2).drop (l.length - n)).length = (l ++ l2).length - (l.length - n) :=
    List.length_drop _ _
  have h4 : (l ++ l2).length = l.length + l2.length := List.length_append _ _
  omega

theorem next_candidate_eq_of (now : Nat) (r s : Room) (player : String)
    (hpres : s.presence = r.presence) (hpl : s.players = r.players) :
    next_candidate now s player = next_candidate now r player := by
  unfold next_candidate active_players
  rw [hpres, hpl]

theorem reconcile_players (now : Nat) (r : Room) :
    (reconcile_room_state now r).players = r.players := by
  simp only [reconcile_room_state]
  split
  · rfl
  · split <;> try rfl
    split <;> try rfl
    split <;> try rfl
    split <;> rfl

theorem reconcile_presence (now : Nat) (r : Room) :
    (reconcile_room_state now r).presence = (sweep_presence now r).presence := by
  simp only [reconcile_room_state]
  split
  · rfl
  · split <;> try rfl
    split <;> try rfl
    split <;> try rfl
    split <;> rfl

theorem answer_op_eq_with_question (judge : Except String JVal) (now : Nat) (room0 : Room)
    (player answer_text : String) (q : Question)
    (hp : ¬ player = "") (ha : ¬ answer_text = "")
    (hph : (answer_prelude now room0 player).phase = "question")
    (hq : (answer_prelude now room0 player).current_question = some q) :
    answer_op judge now room0 player answer_text =
      answer_with_question judge now (answer_prelude now room0 player) q player answer_text := by
  simp only [answer_op]
  rw [if_neg (by rintro (h | h); exacts [hp h, ha h])]
  rw [if_pos hph, hq]

/-- C5.  A player already recorded in `attemptedPlayers` for the current
question is always rejected with a 409 conflict carrying the current
snapshot — the attempt check precedes the turn check, so this holds even when
`expectedPlayer` has since been set to that player (no hypothesis on
`expectedPlayer` appears) — and the room state returned is exactly the
presence-marked, reconciled room: the answer logic mutates nothing. -/
theorem c5_reanswer_rejected (judge : Except String JVal) (now : Nat) (room0 : Room)
    (player answer_text : String) (q : Question)
    (hp : ¬ player = "") (ha : ¬ answer_text = "")
    (hph : (answer_prelude now room0 player).phase = "question")
    (hq : (answer_prelude now room0 player).current_question = some q)
    (hatt : player ∈ q.attempt_order) :
    answer_op judge now room0 player answer_text =
      (answer_prelude now room0 player,
        ApiResponse.conflict "Yanlis cevap. Bu tur tekrar cevap veremezsin."
          (room_snapshot now (answer_prelude now room0 player))) := by
  rw [answer_op_eq_with_question judge now room0 player answer_text q hp ha hph hq]
  unfold answer_with_question
  rw [if_pos hatt]

def wq5 : Question :=
  { question := "Soru metni", answer := "Cevap", hostComment := "Hadi",
    category := "Genel", winner := "", expected_player := "Bora",
    attempt_order := ["Bora"], turn_deadline_ms := 50000, question_deadline_ms := 90000 }

def wroom5 : Room :=
  { initial_room with
    players := [("Ayse", 0), ("Bora", 0)], presence := [("Ayse", 40000), ("Bora", 40000)],
    phase := "question", round := 1, current_question := some wq5 }

theorem c5_reanswer_rejected_witness :
    (answer_prelude 40000 wroom5 "Bora").current_question = some wq5 ∧
      answer_op (Except.error "err") 40000 wroom5 "Bora" "yine yanlis" =
        (answer_prelude 40000 wroom5 "Bora",
          ApiResponse.conflict "Yanlis cevap. Bu tur tekrar cevap veremezsin."
            (room_snapshot 40000 (answer_prelude 40000 wroom5 "Bora"))) :=
  ⟨by decide,
    c5_reanswer_rejected (Except.error "err") 40000 wroom5 "Bora" "yine yanlis" wq5
      (by decide) (by decide) (by decide) (by decide) (by decide)⟩

set_option maxRecDepth 10000 in
theorem answer_incorrect_spec (now : Nat) (room2 : Room) (q1 : Question) (player : String) :
    ((next_candidate now room2 player ≠ "" ∧
        ¬ next_candidate now room2 player ∈ q1.attempt_order ++ [player]) →
      (answer_incorrect now room2 q1 player).1.phase = room2.phase ∧
      (answer_incorrect now room2 q1 player).1.current_question =
        some { q1 with
          attempt_order := q1.attempt_order ++ [player],
          expected_player := next_candidate now room2 player,
          turn_deadline_ms := now + TURN_TIMEOUT_MS }) ∧
    (¬ (next_candidate now room2 player ≠ "" ∧
        ¬ next_candidate now room2 player ∈ q1.attempt_order ++ [player]) →
      (answer_incorrect now room2 q1 player).1.phase = "countdown" ∧
      (answer_incorrect now room2 q1 player).1.current_question = none ∧
      (answer_incorrect now room2 q1 player).1.countdown_end_ms = now + 3000 ∧
      (⟨room2.seq + 2, "host",
        "Iki taraf da bilemedi. Dogru cevap: " ++ q1.answer ++ ". 3 saniye sonra yeni soru."⟩ :
          Event) ∈ (answer_incorrect now room2 q1 player).1.events) := by
  have hnc : next_candidate now
      (add_event
        { room2 with
          current_question := some { q1 with attempt_order := q1.attempt_order ++ [player] } }
        "host" "Yanlis cevap.") player = next_candidate now room2 player :=
    next_candidate_eq_of now room2 _ player rfl rfl
  simp only [answer_incorrect, hnc]
  constructor
  · intro hcond
    rw [if_pos hcond]
    exact ⟨rfl, rfl⟩
  · intro hcond
    rw [if_neg hcond]
    refine ⟨rfl, rfl, rfl, ?_⟩
    show (⟨room2.seq + 2, "host",
        "Iki taraf da bilemedi. Dogru cevap: " ++ q1.answer ++ ". 3 saniye sonra yeni soru."⟩ :
          Event) ∈
      lastN 120
        ((add_event
          { room2 with
            current_question := some { q1 with attempt_order := q1.attempt_order ++ [player] } }
          "host" "Yanlis cevap.").events ++
          [(⟨room2.seq + 2, "host",
            "Iki taraf da bilemedi. Dogru cevap: " ++ q1.answer ++ ". 3 saniye sonra yeni soru."⟩ :
              Event)])
    exact mem_lastN_append_of_mem _ _ _ (by simp) (by simp)

set_option maxRecDepth 10000 in
/-- C4.  On an incorrect answer from the current `expectedPlayer`: the
candidate is the first active player, in stable order, other than the
answerer (`next_candidate`).  If that candidate exists and is not among the
attempted players, it becomes the new `expectedPlayer` with a fresh
`now + 10000 ms` turn deadline and the phase stays `question`; otherwise the
question resolves — the canonical answer is revealed in a host event, the
phase becomes `countdown` (3 s) and `currentQuestion` is cleared.  With
exactly two active players the second incorrect answer falls into the second
case, because the only candidate is the first answerer, already in
`attemptedPlayers`. -/
theorem c4_turn_sequencing (judge : Except String JVal) (now : Nat) (room0 : Room)
    (player answer_text : String) (q : Question)
    (hp : ¬ player = "") (ha : ¬ answer_text = "")
    (hph : (answer_prelude now room0 player).phase = "question")
    (hq : (answer_prelude now room0 player).current_question = some q)
    (hexp : q.expected_player = player)
    (hnotatt : ¬ player ∈ q.attempt_order)
    (hwrong : evaluate_answer judge q.question q.answer answer_text = false) :
    ((next_candidate now (answer_prelude now room0 player) player ≠ "" ∧
        ¬ next_candidate now (answer_prelude now room0 player) player ∈
          q.attempt_order ++ [player]) →
      (answer_op judge now room0 player answer_text).1.phase = "question" ∧
      (answer_op judge now room0 player answer_text).1.current_question =
        some { q with
          attempt_order := q.attempt_order ++ [player],
          expected_player := next_candidate now (answer_prelude now room0 player) player,
          turn_deadline_ms := now + TURN_TIMEOUT_MS }) ∧
    (¬ (next_candidate now (answer_prelude now room0 player) player ≠ "" ∧
        ¬ next_candidate now (answer_prelude now room0 player) player ∈
          q.attempt_order ++ [player]) →
      (answer_op judge now room0 player answer_text).1.phase = "countdown" ∧
      (answer_op judge now room0 player answer_text).1.current_question = none ∧
      (answer_op judge now room0 player answer_text).1.countdown_end_ms = now + 3000 ∧
      (⟨(answer_prelude now room0 player).seq + 3, "host",
        "Iki taraf da bilemedi. Dogru cevap: " ++ q.answer ++ ". 3 saniye sonra yeni soru."⟩ :
          Event) ∈ (answer_op judge now room0 player answer_text).1.events) := by
  rw [answer_op_eq_with_question judge now room0 player answer_text q hp ha hph hq]
  have hexp_ne : ¬ q.expected_player = "" := by rw [hexp]; exact hp
  unfold answer_with_question
  rw [if_neg hnotatt]
  rw [if_neg (show ¬ (q.expected_player ≠ "" ∧ q.expected_player ≠ player) from by
    rintro ⟨-, hne⟩; exact hne hexp)]
  simp only [if_neg hexp_ne]
  unfold answer_evaluated
  simp only [hwrong]
  rw [if_neg (show ¬ ((add_event
        { answer_prelude now room0 player with current_question := some q } "system"
        (player ++ ": " ++ answer_text)).phase ≠ "question" ∨
      (add_event { answer_prelude now room0 player with current_question := some q } "system"
        (player ++ ": " ++ answer_text)).current_question = none) from by
    rintro (h2 | h2)
    · exact h2 hph
    · exact Option.noConfusion h2)]
  rw [if_neg Bool.false_ne_true]
  have hspec := answer_incorrect_spec now
    (add_event { answer_prelude now room0 player with current_question := some q } "system"
      (player ++ ": " ++ answer_text)) q player
  rw [next_candidate_eq_of now (answer_prelude now room0 player)
    (add_event { answer_prelude now room0 player with current_question := some q } "system"
      (player ++ ": " ++ answer_text)) player rfl rfl] at hspec
  obtain ⟨hA, hB⟩ := hspec
  constructor
  · intro hcond
    obtain ⟨hA1, hA2⟩ := hA hcond
    refine ⟨?_, hA2⟩
    rw [hA1]
    exact hph
  · intro hcond
    obtain ⟨h1, h2, h3, h4⟩ := hB hcond
    exact ⟨h1, h2, h3, h4⟩

def wq4 : Question :=
  { question := "Soru metni", answer := "Cevap", hostComment := "Hadi",
    category := "Genel", winner := "", expected_player := "Bora",
    attempt_order := ["Ayse"], turn_deadline_ms := 50000, question_deadline_ms := 90000 }

def wroom4 : Room :=
  { initial_room with
    players := [("Ayse", 0), ("Bora", 0)], presence := [("Ayse", 40000), ("Bora", 40000)],
    phase := "question", round := 1, current_question := some wq4 }

theorem c4_turn_sequencing_witness :
    (answer_op (Except.error "err") 40000 wroom4 "Bora" "bilmiyorum").1.phase = "countdown" ∧
      (answer_op (Except.error "err") 40000 wroom4 "Bora" "bilmiyorum").1.current_question =
        none :=
  have h := c4_turn_sequencing (Except.error "err") 40000 wroom4 "Bora" "bilmiyorum" wq4
    (by decide) (by decide) (by decide) (by decide) (by decide) (by decide) (by decide)
  have h2 := h.2 (by decide)
  ⟨h2.1, h2.2.1⟩

set_option maxRecDepth 10000 in
theorem answer_correct_spec (now : Nat) (room2 : Room) (q1 : Question) (player : String) :
    (answer_correct now room2 q1 player).1.phase = "countdown" ∧
    (answer_correct now room2 q1 player).1.current_question = none ∧
    (answer_correct now room2 q1 player).1.presence = room2.presence ∧
    assoc_lookup (answer_correct now room2 q1 player).1.players player =
      some ((assoc_lookup room2.players player).getD 0 + 1) ∧
    (∃ snap, (answer_correct now room2 q1 player).2 = ApiResponse.ok snap) ∧
    (⟨room2.seq + 1, "host", "Dogru! Turu " ++ player ++ " aldi. (+1 puan)"⟩ : Event) ∈
      (answer_correct now room2 q1 player).1.events := by
  refine ⟨rfl, rfl, rfl, assoc_lookup_set_self _ _ _, ⟨_, rfl⟩, ?_⟩
  show (⟨room2.seq + 1, "host", "Dogru! Turu " ++ player ++ " aldi. (+1 puan)"⟩ : Event) ∈
    lastN 120
      (lastN 120
        (lastN 120 (room2.events ++
          [(⟨room2.seq + 1, "host", "Dogru! Turu " ++ player ++ " aldi. (+1 puan)"⟩ : Event)]) ++
          [(⟨room2.seq + 2, "host",
            "Skor: " ++ join_scores (assoc_set room2.players player
              ((assoc_lookup room2.players player).getD 0 + 1))⟩ : Event)]) ++
        [(⟨room2.seq + 3, "host", "3 saniye sonra yeni soru."⟩ : Event)])
  rw [lastN_lastN_append, List.append_assoc, lastN_lastN_append, List.append_assoc]
  refine mem_lastN_append_of_mem _ _ _ (by simp) ?_
  simp

theorem prelude_players (now : Nat) (r : Room) (p : String) :
    (answer_prelude now r p).players = r.players :=
  reconcile_players now (mark_presence now r p)

theorem prelude_presence_lookup (now : Nat) (r : Room) (p : String) :
    assoc_lookup (answer_prelude now r p).presence p = some now := by
  show assoc_lookup (reconcile_room_state now (mark_presence now r p)).presence p = some now
  rw [reconcile_presence]
  show assoc_lookup
    ((assoc_set r.presence p now).filter
      (fun pr => decide (now - pr.2 ≤ PRESENCE_TIMEOUT_MS))) p = some now
  exact assoc_lookup_filter _ _ _ _ (assoc_lookup_set_self _ _ _) (by simp)

set_option maxRecDepth 10000 in
theorem answer_evaluated_correct_eq (judge : Except String JVal) (now : Nat) (room : Room)
    (q1 : Question) (player answer_text : String)
    (hph : room.phase = "question")
    (hcorrect : evaluate_answer judge q1.question q1.answer answer_text = true) :
    answer_evaluated judge now room q1 player answer_text =
      answer_correct now
        (add_event { room with current_question := some q1 } "system"
          (player ++ ": " ++ answer_text))
        q1 player := by
  unfold answer_evaluated
  simp only [hcorrect]
  rw [if_neg (show ¬ ((add_event { room with current_question := some q1 } "system"
        (player ++ ": " ++ answer_text)).phase ≠ "question" ∨
      (add_event { room with current_question := some q1 } "system"
        (player ++ ": " ++ answer_text)).current_question = none) from by
    rintro (h2 | h2)
    · exact h2 hph
    · exact Option.noConfusion h2)]
  exact if_pos trivial

set_option maxRecDepth 10000 in
/-- C10.  A player absent from the `players` mapping can submit an answer
during phase `question`: the handler never checks membership, so the request
is not rejected for it (the response is a 200 snapshot), the player's
presence is recorded at the request time, and on a correct answer
`players.get(player, 0) + 1` creates the score entry at 1; the win is
recorded against the question (the `winner` field is set on the question
object, which the same branch then discards — observable as the host win
event naming the player). -/
theorem c10_nonmember_can_answer_and_win (judge : Except String JVal) (now : Nat)
    (room0 : Room) (player answer_text : String) (q : Question)
    (hp : ¬ player = "") (ha : ¬ answer_text = "")
    (hmem : assoc_lookup room0.players player = none)
    (hph : (answer_prelude now room0 player).phase = "question")
    (hq : (answer_prelude now room0 player).current_question = some q)
    (hnotatt : ¬ player ∈ q.attempt_order)
    (hexp : q.expected_player = "" ∨ q.expected_player = player)
    (hcorrect : evaluate_answer judge q.question q.answer answer_text = true) :
    (∃ snap, (answer_op judge now room0 player answer_text).2 = ApiResponse.ok snap) ∧
    assoc_lookup (answer_op judge now room0 player answer_text).1.players player = some 1 ∧
    assoc_lookup (answer_op judge now room0 player answer_text).1.presence player = some now ∧
    (answer_op judge now room0 player answer_text).1.phase = "countdown" ∧
    (⟨(answer_prelude now room0 player).seq + 2, "host",
      "Dogru! Turu " ++ player ++ " aldi. (+1 puan)"⟩ : Event) ∈
      (answer_op judge now room0 player answer_text).1.events := by
  rw [answer_op_eq_with_question judge now room0 player answer_text q hp ha hph hq]
  unfold answer_with_question
  rw [if_neg hnotatt]
  rw [if_neg (show ¬ (q.expected_player ≠ "" ∧ q.expected_player ≠ player) from by
    rintro ⟨h1, h2⟩
    rcases hexp with he | he
    exacts [h1 he, h2 he])]
  have hq1 : evaluate_answer judge
      (if q.expected_player = "" then { q with expected_player := player } else q).question
      (if q.expected_player = "" then { q with expected_player := player } else q).answer
      answer_text = true := by
    rcases hexp with he | he
    · rw [if_pos he]
      exact hcorrect
    · rw [if_neg (show ¬ q.expected_player = "" from by rw [he]; exact hp)]
      exact hcorrect
  rw [answer_evaluated_correct_eq judge now (answer_prelude now room0 player)
    (if q.expected_player = "" then { q with expected_player := player } else q)
    player answer_text hph hq1]
  obtain ⟨hs1, hs2, hs3, hs4, hs5, hs6⟩ := answer_correct_spec now
    (add_event
      { answer_prelude now room0 player with
        current_question :=
          some (if q.expected_player = "" then { q with expected_player := player } else q) }
      "system" (player ++ ": " ++ answer_text))
    (if q.expected_player = "" then { q with expected_player := player } else q) player
  have hnone : assoc_lookup
      (add_event
        { answer_prelude now room0 player with
          current_question :=
            some (if q.expected_player = "" then { q with expected_player := player } else q) }
        "system" (player ++ ": " ++ answer_text)).players player = none := by
    show assoc_lookup (answer_prelude now room0 player).players player = none
    rw [prelude_players]
    exact hmem
  rw [hnone] at hs4
  refine ⟨hs5, ?_, ?_, hs1, ?_⟩
  · exact hs4
  · rw [hs3]
    exact prelude_presence_lookup now room0 player
  · exact hs6

def wq10 : Question :=
  { question := "Bir haftada kac gun vardir", answer := "7", hostComment := "Hadi",
    category := "Genel", winner := "", expected_player := "",
    attempt_order := [], turn_deadline_ms := 0, question_deadline_ms := 90000 }

def wroom10 : Room :=
  { initial_room with
    players := [("Ayse", 0), ("Bora", 0)], presence := [("Ayse", 40000), ("Bora", 40000)],
    phase := "question", round := 1, current_question := some wq10 }

theorem c10_nonmember_can_answer_and_win_witness :
    assoc_lookup wroom10.players "Eftalya" = none ∧
      assoc_lookup
        (answer_op (Except.error "e") 40000 wroom10 "Eftalya" "7").1.players "Eftalya" =
          some 1 ∧
      (answer_op (Except.error "e") 40000 wroom10 "Eftalya" "7").1.phase = "countdown" :=
  have h := c10_nonmember_can_answer_and_win (Except.error "e") 40000 wroom10 "Eftalya" "7"
    wq10 (by decide) (by decide) (by decide) (by decide) (by decide) (by decide)
    (Or.inl (by decide)) (by decide)
  ⟨by decide, h.2.1, h.2.2.2.1⟩

def c1_payload : GenPayload :=
  { category := "Tarih", question := "Ilk soru", answer := "Cevap", hostComment := "Haydi" }

/-- A lock-granular interleaving of three concurrent requests against one
room.  Thread T1 serves a poll whose reconciliation starts a generation
(`genBegin 10003`) and, after its network call fails, applies the failure at
the end (`genApplyErr`).  Thread T2 polls at 25000 while both players'
presence has lapsed, collapsing the room to lobby — which also resets the
`generating` guard.  Both players then re-ready, and thread T3's poll starts
and successfully applies a second generation (`genBegin 35002`,
`genApplyOk 35003`).  Each apply section is preceded by its own begin
section, exactly as `ensure_round_question` releases `ROOM_LOCK` around the
network call in src/app.py. -/
def c1_trace : List Op :=
  [ .join 0 "Ayse", .join 1 "Can", .ready 2 "Ayse", .ready 3 "Can",
    .genBegin 10003,
    .poll 25000 "Ayse",
    .ready 25001 "Ayse", .ready 25002 "Can",
    .genBegin 35002,
    .genApplyOk 35003 c1_payload,
    .genApplyErr "model hatasi" ]

/-- C1.  The invariant "`currentQuestion` is present iff `phase == question`"
holds in a fresh room but is violated after the interleaving `c1_trace` of
join/ready/poll and question-generation sections: the failure apply of the
stale first generation sets the phase to `lobby` without clearing the
question installed by the second generation, leaving a room in phase `lobby`
whose `currentQuestion` is present. -/
theorem c1_invariant_violation :
    room_invariant initial_room ∧
      (run_room initial_room c1_trace).phase = "lobby" ∧
      (run_room initial_room c1_trace).current_question.isSome = true ∧
      ¬ room_invariant (run_room initial_room c1_trace) := by
  refine ⟨by decide, by decide, by decide, ?_⟩
  intro h
  have h2 : (run_room initial_room c1_trace).phase = "question" := by
    rw [room_invariant] at h
    exact h.mpr (by decide)
  have h3 : (run_room initial_room c1_trace).phase = "lobby" := by decide
  rw [h3] at h2
  exact absurd h2 (by decide)

theorem reconcile_inv (now : Nat) (r : Room) (h : room_invariant r) :
    room_invariant (reconcile_room_state now r) := by
  have hsw : room_invariant (sweep_presence now r) := h
  simp only [reconcile_room_state]
  split
  · show ("lobby" = "question") ↔ (none : Option Question).isSome = true
    decide
  · split
    · split
      · split
        · show ("countdown" = "question") ↔ (none : Option Question).isSome = true
          decide
        · split
          · show ("countdown" = "question") ↔ (none : Option Question).isSome = true
            decide
          · exact hsw
      · exact hsw
    · exact hsw

theorem join_op_inv (now : Nat) (room0 : Room) (player : String)
    (h : room_invariant room0) : room_invariant (join_op now room0 player).1 := by
  simp only [join_op]
  split
  · exact h
  · apply reconcile_inv
    split
    · exact h
    · exact h

theorem leave_op_inv (now : Nat) (room0 : Room) (player : String)
    (h : room_invariant room0) : room_invariant (leave_op now room0 player).1 := by
  simp only [leave_op]
  split
  · exact h
  · exact reconcile_inv _ _ h

theorem ready_op_tail_inv (now : Nat) (r : Room) (player : String) (hr : room_invariant r) :
    room_invariant
      ((if ¬ (r.phase = "lobby" ∨ r.phase = "round_end") then
          (r, ApiResponse.conflict "Su an hazirlanma asamasi degil" (room_snapshot now r))
        else if r.ready.contains player = true then (r, ApiResponse.ok (room_snapshot now r))
        else
          (if can_start_round now
              (add_event { r with ready := r.ready ++ [player] } "system"
                (player ++ " hazir.")) = true then
            start_countdown now
              (add_event { r with ready := r.ready ++ [player] } "system" (player ++ " hazir."))
          else add_event { r with ready := r.ready ++ [player] } "system" (player ++ " hazir."),
          ApiResponse.ok
            (room_snapshot now
              (if can_start_round now
                  (add_event { r with ready := r.ready ++ [player] } "system"
                    (player ++ " hazir.")) = true then
                start_countdown now
                  (add_event { r with ready := r.ready ++ [player] } "system"
                    (player ++ " hazir."))
              else
                add_event { r with ready := r.ready ++ [player] } "system"
                  (player ++ " hazir."))))).1) := by
  split
  · exact hr
  · split
    · exact hr
    · show room_invariant
        (if can_start_round now
            (add_event { r with ready := r.ready ++ [player] } "system"
              (player ++ " hazir.")) = true then
          start_countdown now
            (add_event { r with ready := r.ready ++ [player] } "system" (player ++ " hazir."))
        else add_event { r with ready := r.ready ++ [player] } "system" (player ++ " hazir."))
      split
      · show ("countdown" = "question") ↔ (none : Option Question).isSome = true
        decide
      · exact hr

theorem ready_op_inv (now : Nat) (room0 : Room) (player : String)
    (h : room_invariant room0) : room_invariant (ready_op now room0 player).1 := by
  simp only [ready_op]
  split
  · exact h
  · split
    · exact ready_op_tail_inv now _ player (reconcile_inv now _ h)
    · exact ready_op_tail_inv now _ player (reconcile_inv now _ h)

theorem poll_op_inv (now : Nat) (room0 : Room) (player : String)
    (h : room_invariant room0) : room_invariant (poll_op now room0 player) := by
  simp only [poll_op]
  apply reconcile_inv
  split
  · exact h
  · exact h

theorem answer_correct_inv (now : Nat) (room2 : Room) (q1 : Question) (player : String) :
    room_invariant (answer_correct now room2 q1 player).1 := by
  show ("countdown" = "question") ↔ (none : Option Question).isSome = true
  decide

theorem answer_incorrect_inv (now : Nat) (room2 : Room) (q1 : Question) (player : String)
    (hph : room2.phase = "question") :
    room_invariant (answer_incorrect now room2 q1 player).1 := by
  simp only [answer_incorrect]
  split
  · exact iff_of_true hph rfl
  · show ("countdown" = "question") ↔ (none : Option Question).isSome = true
    decide

theorem answer_evaluated_inv (judge : Except String JVal) (now : Nat) (room : Room)
    (q1 : Question) (player answer_text : String) (hph : room.phase = "question") :
    room_invariant (answer_evaluated judge now room q1 player answer_text).1 := by
  simp only [answer_evaluated]
  split
  · exact iff_of_true hph rfl
  · split
    · exact answer_correct_inv _ _ _ _
    · exact answer_incorrect_inv _ _ _ _ hph

theorem answer_with_question_inv (judge : Except String JVal) (now : Nat) (room : Room)
    (q : Question) (player answer_text : String) (hph : room.phase = "question")
    (hinv : room_invariant room) :
    room_invariant (answer_with_question judge now room q player answer_text).1 := by
  simp only [answer_with_question]
  split
  · exact hinv
  · split
    · exact hinv
    · exact answer_evaluated_inv _ _ _ _ _ _ hph

theorem answer_op_inv (judge : Except String JVal) (now : Nat) (room0 : Room)
    (player answer_text : String) (h : room_invariant room0) :
    room_invariant (answer_op judge now room0 player answer_text).1 := by
  simp only [answer_op]
  split
  · exact h
  · have hr : room_invariant (answer_prelude now room0 player) := reconcile_inv _ _ h
    split
    · split
      · exact answer_with_question_inv _ _ _ _ _ _ (by assumption) hr
      · exact hr
    · exact hr

theorem ensure_begin_inv (now : Nat) (room : Room) (h : room_invariant room) :
    room_invariant (ensure_begin now room).1 := by
  simp only [ensure_begin]
  split
  · exact h
  · exact h

set_option maxRecDepth 10000 in
theorem apply_generation_success_inv (now : Nat) (room : Room) (p : GenPayload) :
    room_invariant (apply_generation_success now room p) := by
  refine iff_of_true ?_ rfl
  simp only [apply_generation_success]
  split <;> rfl

theorem apply_generation_failure_inv (room : Room) (e : String)
    (hcq : room.current_question = none) :
    room_invariant (apply_generation_failure room e) := by
  refine iff_of_false ?_ ?_
  · intro hq
    have hlobby : (apply_generation_failure room e).phase = "lobby" := rfl
    rw [hlobby] at hq
    exact absurd hq (by decide)
  · show ¬ room.current_question.isSome = true
    rw [hcq]
    simp

/-- Complement to the C1 violation: every locked section except the
generation-failure apply preserves the invariant (the successful apply even
establishes it unconditionally), and the failure apply preserves it exactly
when no question is present — the expected situation, since the guard ought
to ensure a generation only completes against the countdown it started in.
The `c1_trace` interleaving defeats the guard because the liveness collapse
resets it. -/
theorem step_preserves_invariant (room : Room) (op : Op) (h : room_invariant room)
    (hguard : ∀ e, op = Op.genApplyErr e → room.current_question = none) :
    room_invariant (step room op) := by
  cases op with
  | join now player => exact join_op_inv now room player h
  | leave now player => exact leave_op_inv now room player h
  | ready now player => exact ready_op_inv now room player h
  | answer judge now player text => exact answer_op_inv judge now room player text h
  | poll now player => exact poll_op_inv now room player h
  | genBegin now => exact ensure_begin_inv now room h
  | genApplyOk now p => exact apply_generation_success_inv now room p
  | genApplyErr e => exact apply_generation_failure_inv room e (hguard e rfl)
